import Mathlib

/-!
# Registration handler of `user_management_service`

A shallow embedding of `internal/user/register.go`:

* `Regexp` with `Regexp.MatchString` embeds the two anchored patterns the validator
  compiles with `regexp.MustCompile`;
* `Parse` embeds `time.Parse("2006-01-02", _)`;
* `isAdult` and `validateRegistrationInput` are the two validator functions;
* `RegisterUserHandler` is the HTTP handler, with the database handle, the password
  hasher, the identifier generator, the clock and the outcome of the response encoder
  passed explicitly, and with every call the handler makes on them recorded in order.

Go strings that reach the handler come out of `encoding/json`, hence are valid UTF-8; they
are embedded as `String`, `len` being the number of bytes of the UTF-8 encoding.
-/

namespace User

/-! ## Regular expressions (`regexp`) -/

/-- Abstract syntax of the fragment of RE2 used by `register.go`. A character class is a list of
inclusive rune ranges, as in `regexp/syntax`. -/
inductive Regexp where
  | noMatch : Regexp
  | emptyMatch : Regexp
  | charClass : List (Char × Char) → Regexp
  | concat : Regexp → Regexp → Regexp
  | alternate : Regexp → Regexp → Regexp
  | star : Regexp → Regexp

namespace Regexp

/-- Membership of a rune in a list of inclusive ranges. -/
def inClass (c : Char) (ranges : List (Char × Char)) : Bool :=
  ranges.any fun r => decide (r.1.toNat ≤ c.toNat) && decide (c.toNat ≤ r.2.toNat)

/-- The literal rune `c`. -/
def literal (c : Char) : Regexp := charClass [(c, c)]

/-- The operator `r+`. -/
def plus (r : Regexp) : Regexp := concat r (star r)

/-- The operator `r{n}`. -/
def repeatN : Nat → Regexp → Regexp
  | 0, _ => emptyMatch
  | n + 1, r => concat r (repeatN n r)

/-- The operator `r{n,}`. -/
def atLeast : Nat → Regexp → Regexp
  | 0, r => star r
  | n + 1, r => concat r (atLeast n r)

/-- Whether `r` matches the empty text. -/
def nullable : Regexp → Bool
  | noMatch => false
  | emptyMatch => true
  | charClass _ => false
  | concat r s => nullable r && nullable s
  | alternate r s => nullable r || nullable s
  | star _ => true

/-- The residual of `r` after reading the rune `c`. -/
def step (c : Char) : Regexp → Regexp
  | noMatch => noMatch
  | emptyMatch => noMatch
  | charClass rs => if inClass c rs then emptyMatch else noMatch
  | concat r s =>
      if nullable r then alternate (concat (step c r) s) (step c s) else concat (step c r) s
  | alternate r s => alternate (step c r) (step c s)
  | star r => concat (step c r) (star r)

/-- Whole-text matching of a list of runes. -/
def matchRunes : Regexp → List Char → Bool
  | r, [] => nullable r
  | r, c :: cs => matchRunes (step c r) cs

/-- The call `re.MatchString(s)` for a pattern `^r$` compiled without flags: `^` and `$` are the
beginning and the end of the text, so the search reduces to matching the whole of `s`. -/
def MatchString (r : Regexp) (s : String) : Bool := matchRunes r s.data

/-- The texts matched by a regular expression (its language). -/
inductive Matches : Regexp → List Char → Prop
  | emptyMatch : Matches emptyMatch []
  | charClass {rs : List (Char × Char)} {c : Char} : inClass c rs = true → Matches (charClass rs) [c]
  | concat {r s : Regexp} {u v : List Char} :
      Matches r u → Matches s v → Matches (concat r s) (u ++ v)
  | alternateLeft {r s : Regexp} {u : List Char} : Matches r u → Matches (alternate r s) u
  | alternateRight {r s : Regexp} {u : List Char} : Matches s u → Matches (alternate r s) u
  | starNil {r : Regexp} : Matches (star r) []
  | starCons {r : Regexp} {u v : List Char} :
      Matches r u → Matches (star r) v → Matches (star r) (u ++ v)

end Regexp

/-- The class `[a-zA-Z0-9._%+-]`. -/
def emailLocalClass : List (Char × Char) :=
  [('a', 'z'), ('A', 'Z'), ('0', '9'), ('.', '.'), ('_', '_'), ('%', '%'), ('+', '+'), ('-', '-')]

/-- The class `[a-zA-Z0-9.-]`. -/
def emailDomainClass : List (Char × Char) :=
  [('a', 'z'), ('A', 'Z'), ('0', '9'), ('.', '.'), ('-', '-')]

/-- The class `[a-zA-Z]`. -/
def letterClass : List (Char × Char) := [('a', 'z'), ('A', 'Z')]

/-- The class `\d`, which in RE2 is `[0-9]`. -/
def digitClass : List (Char × Char) := [('0', '9')]

open Regexp in
/-- The pattern `^[a-zA-Z0-9._%+-]+@[a-zA-Z0-9.-]+\.[a-zA-Z]{2,}$` (register.go, line 87). -/
def emailRegex : Regexp :=
  concat (plus (charClass emailLocalClass))
    (concat (literal '@')
      (concat (plus (charClass emailDomainClass))
        (concat (literal '.') (atLeast 2 (charClass letterClass)))))

open Regexp in
/-- The pattern `^\+1\(\d{3}\)\d{3}-\d{4}$` (register.go, line 92). -/
def phoneRegex : Regexp :=
  concat (literal '+')
    (concat (literal '1')
      (concat (literal '(')
        (concat (repeatN 3 (charClass digitClass))
          (concat (literal ')')
            (concat (repeatN 3 (charClass digitClass))
              (concat (literal '-') (repeatN 4 (charClass digitClass))))))))

/-! ## Calendar dates (`time`) -/

/-- A `time.Time` as the validator observes it: the civil date of the instant. Only `Year` and
`YearDay` are ever read from it. -/
structure Time where
  year : Int
  month : Nat
  day : Nat
deriving DecidableEq, Repr

/-- The predicate `isLeap` of package `time`. -/
def isLeap (year : Int) : Bool :=
  year % 4 == 0 && (year % 100 != 0 || year % 400 == 0)

/-- The table `daysBefore` of package `time`: `daysBefore m` counts the days of a non-leap year
that precede the month following month `m`, with `daysBefore 0 = 0`. -/
def daysBefore : Nat → Nat
  | 0 => 0
  | 1 => 31
  | 2 => 31 + 28
  | 3 => 31 + 28 + 31
  | 4 => 31 + 28 + 31 + 30
  | 5 => 31 + 28 + 31 + 30 + 31
  | 6 => 31 + 28 + 31 + 30 + 31 + 30
  | 7 => 31 + 28 + 31 + 30 + 31 + 30 + 31
  | 8 => 31 + 28 + 31 + 30 + 31 + 30 + 31 + 31
  | 9 => 31 + 28 + 31 + 30 + 31 + 30 + 31 + 31 + 30
  | 10 => 31 + 28 + 31 + 30 + 31 + 30 + 31 + 31 + 30 + 31
  | 11 => 31 + 28 + 31 + 30 + 31 + 30 + 31 + 31 + 30 + 31 + 30
  | _ => 31 + 28 + 31 + 30 + 31 + 30 + 31 + 31 + 30 + 31 + 30 + 31

/-- The function `daysIn` of package `time`. -/
def daysIn (m : Nat) (year : Int) : Nat :=
  if m == 2 && isLeap year then 29 else daysBefore m - daysBefore (m - 1)

/-- A civil date that exists in the proleptic Gregorian calendar. Every value returned by
`time.Now` and by a successful `time.Parse` is of this kind. -/
def Time.Valid (t : Time) : Prop :=
  1 ≤ t.month ∧ t.month ≤ 12 ∧ 1 ≤ t.day ∧ t.day ≤ daysIn t.month t.year

instance (t : Time) : Decidable t.Valid := by
  unfold Time.Valid; infer_instance

/-- The method `Time.Year`. -/
def Time.Year (t : Time) : Int := t.year

/-- The method `Time.YearDay`: the day of the year, 1 to 365 or 366. -/
def Time.YearDay (t : Time) : Nat :=
  daysBefore (t.month - 1) + (if isLeap t.year && decide (2 < t.month) then 1 else 0) + t.day

/-- Chronological order of civil dates. -/
def Time.le (a b : Time) : Prop :=
  a.year < b.year ∨ (a.year = b.year ∧ (a.month < b.month ∨ (a.month = b.month ∧ a.day ≤ b.day)))

instance (a b : Time) : Decidable (Time.le a b) := by
  unfold Time.le; infer_instance

/-- The helper `isDigit` of `time/format.go`. The helpers of that file index the bytes of the
text; a text they accept consists of ASCII digits and `-` only, where bytes and characters
coincide, so they are embedded over the list of characters. -/
def isDigit (s : List Char) (i : Nat) : Bool :=
  match s.get? i with
  | none => false
  | some c => decide ('0'.toNat ≤ c.toNat) && decide (c.toNat ≤ '9'.toNat)

/-- Value of a decimal digit. -/
def digitVal (c : Char) : Nat := c.toNat - '0'.toNat

/-- The helper `atoi` of `time/format.go` on a text that starts with a digit (callers check
this first, so the sign branch is never taken): every character must be a digit. -/
def atoi (s : List Char) : Option Nat :=
  if s.all (fun c => decide ('0'.toNat ≤ c.toNat) && decide (c.toNat ≤ '9'.toNat)) then
    some (s.foldl (fun acc c => 10 * acc + digitVal c) 0)
  else none

/-- The helper `getnum` of `time/format.go`: a one- or two-digit number, two digits being
mandatory when `fixed` is set. -/
def getnum (s : List Char) (fixed : Bool) : Option (Nat × List Char) :=
  if !isDigit s 0 then none
  else if !isDigit s 1 then
    if fixed then none
    else match s with
      | c :: rest => some (digitVal c, rest)
      | [] => none
  else match s with
    | c :: d :: rest => some (digitVal c * 10 + digitVal d, rest)
    | _ => none

/-- The helper `skip` of `time/format.go` for the one-character layout chunk `-`. -/
def skip (value : List Char) (sep : Char) : Option (List Char) :=
  match value with
  | c :: rest => if c = sep then some rest else none
  | [] => none

/-- The call `time.Parse("2006-01-02", value)`: `none` stands for a non-nil error. The layout is
the chunk sequence four-digit year, `-`, two-digit month, `-`, two-digit day; the month range is
checked when the month is read, the day of the month once the whole text is consumed. -/
def Parse (value : String) : Option Time :=
  let v := value.data
  if v.length < 4 || !isDigit v 0 then none else
  match atoi (v.take 4) with
  | none => none
  | some year =>
  match skip (v.drop 4) '-' with
  | none => none
  | some v1 =>
  match getnum v1 true with
  | none => none
  | some (month, v2) =>
  if month ≤ 0 || 12 < month then none else
  match skip v2 '-' with
  | none => none
  | some v3 =>
  match getnum v3 true with
  | none => none
  | some (day, v4) =>
  if v4.length != 0 then none else
  if day < 1 || daysIn month year < day then none else
  some ⟨year, month, day⟩

/-! ## The validator (`register.go`, lines 15-22 and 82-122) -/

/-- The struct `RegistrationRequest`. -/
structure RegistrationRequest where
  FirstName : String
  LastName : String
  Email : String
  PhoneNumber : String
  Password : String
  DateOfBirth : String
deriving DecidableEq, Repr

/-- The builtin `len` on a string: its length in bytes. -/
def len (s : String) : Nat := s.utf8ByteSize

/-- The function `isAdult`; the value of `time.Now()` is the parameter `now`. -/
def isAdult (now dob : Time) : Bool :=
  let age : Int := now.Year - dob.Year
  let age := if now.YearDay < dob.YearDay then age - 1 else age
  decide (age ≥ 18)

/-- The function `validateRegistrationInput`; `none` is the nil error, `some msg` the error
built by `fmt.Errorf(msg)`. -/
def validateRegistrationInput (now : Time) (req : RegistrationRequest) : Option String :=
  if req.FirstName == "" || req.LastName == "" || req.Email == "" || req.PhoneNumber == ""
      || req.Password == "" || req.DateOfBirth == "" then
    some "all fields are required"
  else if !Regexp.MatchString emailRegex req.Email then
    some "invalid email format"
  else if !Regexp.MatchString phoneRegex req.PhoneNumber then
    some "invalid phone number format"
  else if len req.Password < 8 then
    some "password must be at least 8 characters long"
  else
    match Parse req.DateOfBirth with
    | none => some "invalid date of birth format, expected YYYY-MM-DD"
    | some dob =>
      if !isAdult now dob then some "user must be at least 18 years old"
      else none

/-! ## The handler (`register.go`, lines 24-80) -/

/-- The arguments bound by the `INSERT INTO users` statement, in column order. The column
`password` receives the bytes returned by the hasher. -/
structure UserRow where
  id : String
  first_name : String
  last_name : String
  email : String
  phone_number : String
  password : String
  date_of_birth : String
  is_active : Bool
  created_at : Time
  updated_at : Time
deriving DecidableEq, Repr

/-- A non-nil `*sql.DB`: the current contents of the database and the two statements the handler
runs against it. `QueryRow st email` is the outcome of
`QueryRow("SELECT EXISTS(SELECT 1 FROM users WHERE email = ?)", email).Scan(&exists)`, a read;
`Exec st row` is the outcome of the `INSERT`, an optional error and the contents afterwards. -/
structure DB (σ : Type) where
  state : σ
  QueryRow : σ → String → Except String Bool
  Exec : σ → UserRow → Option String × σ

/-- What the handler depends on outside the request and the database: the successive readings of
`time.Now()`, `bcrypt.GenerateFromPassword(_, bcrypt.DefaultCost)`, `uuid.NewString()`, and the
error, if any, that `json.NewEncoder(w).Encode(v)` returns when it writes the map `v` to the
response writer. -/
structure Env where
  Now : Nat → Time
  GenerateFromPassword : String → Except String String
  NewString : String
  Encode : List (String × String) → Option String

/-- The calls the handler makes on its collaborators, recorded in program order. -/
inductive Call where
  | Println (msg : String)
  | Printf (msg : String)
  | QueryRow (email : String)
  | GenerateFromPassword (password : String)
  | Exec (row : UserRow)
deriving DecidableEq, Repr

/-- Payload written to the `http.ResponseWriter`: the text handed to `http.Error` (which writes
it as a line of plain text), or the map handed to the JSON encoder. -/
inductive Body where
  | text (msg : String)
  | json (fields : List (String × String))
deriving DecidableEq, Repr

/-- The response as recorded by the `http.ResponseWriter`. -/
structure Response where
  status : Nat
  body : Body
deriving DecidableEq, Repr

/-- The call `http.Error(w, msg, code)`. -/
def Error (msg : String) (code : Nat) : Response := ⟨code, Body.text msg⟩

/-- The constant `http.StatusBadRequest`. -/
def StatusBadRequest : Nat := 400

/-- The constant `http.StatusInternalServerError`. -/
def StatusInternalServerError : Nat := 500

/-- The constant `http.StatusCreated`. -/
def StatusCreated : Nat := 201

/-- Everything observable of one run of the handler. -/
structure Outcome (σ : Type) where
  response : Response
  calls : List Call
  db : Option (DB σ)

/-- The closure returned by `RegisterUserHandler(db)`, applied to one request. `decoded` is the
result of `json.NewDecoder(r.Body).Decode(&req)`; `db = none` is the nil handle. In the last
branch, where the encoder fails, the status line 201 is already written when `http.Error` is
called, and the first status written is the one that stands. -/
def RegisterUserHandler {σ : Type} (env : Env) (db : Option (DB σ))
    (decoded : Except String RegistrationRequest) : Outcome σ :=
  match decoded with
  | .error err => ⟨Error ("Invalid request payload: " ++ err) StatusBadRequest, [], db⟩
  | .ok req =>
    match validateRegistrationInput (env.Now 0) req with
    | some validationError => ⟨Error validationError StatusBadRequest, [], db⟩
    | none =>
      match db with
      | none =>
        ⟨Error "Internal server error" StatusInternalServerError,
          [Call.Println "Database connection is nil"], none⟩
      | some d =>
        match d.QueryRow d.state req.Email with
        | .error err =>
          ⟨Error ("Internal server error: " ++ err) StatusInternalServerError,
            [Call.QueryRow req.Email,
             Call.Printf ("Error querying database for email: " ++ err ++ "\n")], some d⟩
        | .ok found =>
          if found then
            ⟨Error "Email already in use" StatusBadRequest, [Call.QueryRow req.Email], some d⟩
          else
            match env.GenerateFromPassword req.Password with
            | .error err =>
              ⟨Error ("Failed to hash password: " ++ err) StatusInternalServerError,
                [Call.QueryRow req.Email, Call.GenerateFromPassword req.Password], some d⟩
            | .ok hashedPassword =>
              let userID := env.NewString
              let row : UserRow :=
                ⟨userID, req.FirstName, req.LastName, req.Email, req.PhoneNumber, hashedPassword,
                  req.DateOfBirth, true, env.Now 1, env.Now 2⟩
              let calls :=
                [Call.QueryRow req.Email, Call.GenerateFromPassword req.Password, Call.Exec row]
              match d.Exec d.state row with
              | (some err, st) =>
                ⟨Error ("Failed to insert user: " ++ err) StatusInternalServerError, calls,
                  some ⟨st, d.QueryRow, d.Exec⟩⟩
              | (none, st) =>
                match env.Encode [("message", "User created successfully")] with
                | none =>
                  ⟨⟨StatusCreated, Body.json [("message", "User created successfully")]⟩, calls,
                    some ⟨st, d.QueryRow, d.Exec⟩⟩
                | some err =>
                  ⟨⟨StatusCreated, Body.text ("Failed to encode response: " ++ err)⟩, calls,
                    some ⟨st, d.QueryRow, d.Exec⟩⟩

/-- The table `users` as the list of rows inserted so far: the existence query answers whether
some row carries the email, the insert appends the row, and neither statement fails. -/
def tableDB (rows : List UserRow) : DB (List UserRow) :=
  ⟨rows, fun st email => .ok (st.any fun r => r.email == email), fun st row => (none, st ++ [row])⟩

/-- The same payload submitted again and again, once per environment of the list, each run
against the database left by the previous one: the responses in order and the final handle. -/
def resubmit {σ : Type} (req : RegistrationRequest) :
    List Env → Option (DB σ) → List Response × Option (DB σ)
  | [], db => ([], db)
  | env :: envs, db =>
    let out := RegisterUserHandler env db (.ok req)
    let rest := resubmit req envs out.db
    (out.response :: rest.1, rest.2)

/-- The payload of the tests `TestRegisterUserHandler_Success` and of the specification. -/
def johnDoe : RegistrationRequest :=
  ⟨"John", "Doe", "johndoe@example.com", "+1(123)456-7890", "validpassword", "1990-01-01"⟩

/-! ## The validation rules in the words of the specification -/

/-- Rule 1 is violated: one of the six fields is the empty string. -/
def AnyFieldEmpty (req : RegistrationRequest) : Prop :=
  req.FirstName = "" ∨ req.LastName = "" ∨ req.Email = "" ∨ req.PhoneNumber = "" ∨
    req.Password = "" ∨ req.DateOfBirth = ""

instance (req : RegistrationRequest) : Decidable (AnyFieldEmpty req) := by
  unfold AnyFieldEmpty; infer_instance

/-- Rule 2 holds: the text belongs to the language of
`^[a-zA-Z0-9._%+-]+@[a-zA-Z0-9.-]+\.[a-zA-Z]{2,}$`. -/
def EmailFormat (s : String) : Prop := Regexp.Matches emailRegex s.data

/-- Rule 3 holds: the text is `+1(DDD)DDD-DDDD`, every `D` an ASCII digit. -/
def PhoneFormat (s : String) : Prop :=
  ∃ a b c d e f g h i j : Char,
    (a.isDigit = true ∧ b.isDigit = true ∧ c.isDigit = true ∧ d.isDigit = true ∧
      e.isDigit = true ∧ f.isDigit = true ∧ g.isDigit = true ∧ h.isDigit = true ∧
      i.isDigit = true ∧ j.isDigit = true) ∧
    s.data = ['+', '1', '(', a, b, c, ')', d, e, f, '-', g, h, i, j]

/-- Rule 5 holds: the text is `YYYY-MM-DD`, all of `Y`, `M`, `D` ASCII digits, and the year, month
and day it spells form the existing calendar date `t`. -/
def IsoDate (s : String) (t : Time) : Prop :=
  ∃ y1 y2 y3 y4 m1 m2 d1 d2 : Char,
    (y1.isDigit = true ∧ y2.isDigit = true ∧ y3.isDigit = true ∧ y4.isDigit = true ∧
      m1.isDigit = true ∧ m2.isDigit = true ∧ d1.isDigit = true ∧ d2.isDigit = true) ∧
    s.data = [y1, y2, y3, y4, '-', m1, m2, '-', d1, d2] ∧
    t = ⟨((1000 * digitVal y1 + 100 * digitVal y2 + 10 * digitVal y3 + digitVal y4 : Nat) : Int),
          10 * digitVal m1 + digitVal m2, 10 * digitVal d1 + digitVal d2⟩ ∧
    t.Valid

/-- Rule 6: the age in years, current year minus birth year, minus one if the current day of the
year is before the day of the year of the birth. -/
def age (now dob : Time) : Int :=
  (now.year - dob.year) - (if now.YearDay < dob.YearDay then 1 else 0)

/-- A field is empty after trimming leading and trailing white space: it consists of white space
only, the empty string included. -/
def Blank (s : String) : Prop := s.data.all Char.isWhitespace = true

instance (s : String) : Decidable (Blank s) := by
  unfold Blank; infer_instance

/-- Some field of the request is empty after trimming. -/
def AnyFieldBlank (req : RegistrationRequest) : Prop :=
  Blank req.FirstName ∨ Blank req.LastName ∨ Blank req.Email ∨ Blank req.PhoneNumber ∨
    Blank req.Password ∨ Blank req.DateOfBirth

instance (req : RegistrationRequest) : Decidable (AnyFieldBlank req) := by
  unfold AnyFieldBlank; infer_instance

/-- The number of characters (Unicode code points) of a string. -/
def runeCount (s : String) : Nat := s.length

/-- The person born on `dob` has had the 18th birthday by `now`: the year difference exceeds 18,
or equals 18 with the current month and day not before the month and day of the birth. -/
def reached18 (now dob : Time) : Bool :=
  decide (now.year - dob.year > 18) ||
    (decide (now.year - dob.year = 18) &&
      (decide (dob.month < now.month) ||
        (decide (dob.month = now.month) && decide (dob.day ≤ now.day))))

/-- The payload of `TestRegisterUserHandler_UserNotAdult`: the same with a birth in 2010. -/
def minorPayload : RegistrationRequest :=
  ⟨"John", "Doe", "johndoe@example.com", "+1(123)456-7890", "validpassword", "2010-01-01"⟩

/-- A sample environment: the clock reads 2026-11-04, the hasher returns a fixed digest, the
generator a fixed identifier, and the encoder writes without error. -/
def sampleEnv : Env :=
  ⟨fun _ => ⟨2026, 11, 4⟩, fun _ => .ok "$2a$10$N9qo8uLOickgx2ZMRZoMye",
    "3f0c2a9e-5b1d-4c7a-9e2f-0a1b2c3d4e5f", fun _ => none⟩

/-- The row the handler inserts for `johnDoe` in `sampleEnv`. -/
def johnDoeRow : UserRow :=
  ⟨"3f0c2a9e-5b1d-4c7a-9e2f-0a1b2c3d4e5f", "John", "Doe", "johndoe@example.com",
    "+1(123)456-7890", "$2a$10$N9qo8uLOickgx2ZMRZoMye", "1990-01-01", true,
    ⟨2026, 11, 4⟩, ⟨2026, 11, 4⟩⟩

/-! ## Correctness of the matcher -/

namespace Regexp

theorem nullable_iff (r : Regexp) : nullable r = true ↔ Matches r [] := by
  induction r with
  | noMatch => simp only [nullable]; constructor <;> intro h <;> cases h
  | emptyMatch => simp only [nullable]; exact ⟨fun _ => Matches.emptyMatch, fun _ => trivial⟩
  | charClass rs => simp only [nullable]; constructor <;> intro h <;> cases h
  | concat r s ihr ihs =>
    simp only [nullable, Bool.and_eq_true, ihr, ihs]
    constructor
    · rintro ⟨h1, h2⟩
      exact Matches.concat h1 h2
    · intro h
      generalize hw : ([] : List Char) = w at h
      cases h with
      | @concat _ _ u v h1 h2 =>
        obtain ⟨hu, hv⟩ := List.append_eq_nil.mp hw.symm
        subst hu; subst hv
        exact ⟨h1, h2⟩
  | alternate r s ihr ihs =>
    simp only [nullable, Bool.or_eq_true, ihr, ihs]
    constructor
    · rintro (h | h)
      · exact Matches.alternateLeft h
      · exact Matches.alternateRight h
    · intro h
      cases h with
      | alternateLeft h => exact Or.inl h
      | alternateRight h => exact Or.inr h
  | star r _ => simp only [nullable]; exact ⟨fun _ => Matches.starNil, fun _ => trivial⟩

theorem matches_concat_iff (r s : Regexp) (w : List Char) :
    Matches (concat r s) w ↔ ∃ u v, w = u ++ v ∧ Matches r u ∧ Matches s v := by
  constructor
  · intro h
    cases h with
    | concat h1 h2 => exact ⟨_, _, rfl, h1, h2⟩
  · rintro ⟨u, v, rfl, h1, h2⟩
    exact Matches.concat h1 h2

theorem matches_alternate_iff (r s : Regexp) (w : List Char) :
    Matches (alternate r s) w ↔ Matches r w ∨ Matches s w := by
  constructor
  · intro h
    cases h with
    | alternateLeft h => exact Or.inl h
    | alternateRight h => exact Or.inr h
  · rintro (h | h)
    · exact Matches.alternateLeft h
    · exact Matches.alternateRight h

theorem matches_charClass_iff (rs : List (Char × Char)) (w : List Char) :
    Matches (charClass rs) w ↔ ∃ c, w = [c] ∧ inClass c rs = true := by
  constructor
  · intro h
    cases h with
    | charClass hc => exact ⟨_, rfl, hc⟩
  · rintro ⟨c, rfl, hc⟩
    exact Matches.charClass hc

theorem not_matches_noMatch (w : List Char) : ¬ Matches noMatch w := by
  intro h; cases h

theorem matches_emptyMatch_iff (w : List Char) : Matches emptyMatch w ↔ w = [] := by
  constructor
  · intro h; cases h; rfl
  · rintro rfl; exact Matches.emptyMatch

/-- A non-empty text of `r*` starts with a non-empty text of `r`. -/
theorem matches_star_cons {r : Regexp} {c : Char} {s : List Char}
    (h : Matches (star r) (c :: s)) :
    ∃ u v, s = u ++ v ∧ Matches r (c :: u) ∧ Matches (star r) v := by
  generalize hq : star r = q at h
  generalize hw : c :: s = w at h
  induction h with
  | emptyMatch => cases hq
  | charClass _ => cases hq
  | concat _ _ => cases hq
  | alternateLeft _ => cases hq
  | alternateRight _ => cases hq
  | starNil => cases hw
  | @starCons r0 u v h1 h2 _ ih2 =>
    cases hq
    cases u with
    | nil => exact ih2 rfl hw
    | cons a u =>
      have hw2 : c = a ∧ s = u ++ v := by simpa using hw
      obtain ⟨rfl, rfl⟩ := hw2
      exact ⟨u, v, rfl, h1, h2⟩

theorem step_iff (c : Char) (r : Regexp) (s : List Char) :
    Matches (step c r) s ↔ Matches r (c :: s) := by
  induction r generalizing s with
  | noMatch => simp only [step]; constructor <;> intro h <;> cases h
  | emptyMatch => simp only [step]; constructor <;> intro h <;> cases h
  | charClass rs =>
    simp only [step]
    rw [matches_charClass_iff]
    by_cases hc : inClass c rs = true
    · simp only [hc, if_true, matches_emptyMatch_iff]
      constructor
      · rintro rfl; exact ⟨c, rfl, hc⟩
      · rintro ⟨d, hd, _⟩
        simp only [List.cons.injEq] at hd
        exact hd.2
    · simp only [hc, if_false]
      constructor
      · intro h; exact absurd h (not_matches_noMatch s)
      · rintro ⟨d, hd, hd2⟩
        simp only [List.cons.injEq] at hd
        rw [← hd.1] at hd2
        exact absurd hd2 hc
  | concat r t ihr iht =>
    have key : Matches (concat r t) (c :: s) ↔
        Matches (concat (step c r) t) s ∨ (Matches r [] ∧ Matches t (c :: s)) := by
      rw [matches_concat_iff, matches_concat_iff]
      constructor
      · rintro ⟨u, v, huv, h1, h2⟩
        cases u with
        | nil =>
          simp only [List.nil_append] at huv
          subst huv
          exact Or.inr ⟨h1, h2⟩
        | cons a u =>
          simp only [List.cons_append, List.cons.injEq] at huv
          obtain ⟨rfl, rfl⟩ := huv
          exact Or.inl ⟨u, v, rfl, (ihr u).2 h1, h2⟩
      · rintro (⟨u, v, rfl, h1, h2⟩ | ⟨h1, h2⟩)
        · exact ⟨c :: u, v, rfl, (ihr u).1 h1, h2⟩
        · exact ⟨[], c :: s, rfl, h1, h2⟩
    rw [key]
    simp only [step]
    by_cases hn : nullable r = true
    · simp only [hn, if_true, matches_alternate_iff, iht, ← nullable_iff, true_and]
    · have hn2 : nullable r = false := by simpa using hn
      simp only [hn2, Bool.false_eq_true, if_false, ← nullable_iff, false_and, or_false]
  | alternate r t ihr iht =>
    simp only [step, matches_alternate_iff, ihr, iht]
  | star r ihr =>
    simp only [step]
    rw [matches_concat_iff]
    constructor
    · rintro ⟨u, v, rfl, h1, h2⟩
      exact Matches.starCons ((ihr u).1 h1) h2
    · intro h
      obtain ⟨u, v, rfl, h1, h2⟩ := matches_star_cons h
      exact ⟨u, v, rfl, (ihr u).2 h1, h2⟩

/-- The matcher decides the language of the expression. -/
theorem matchRunes_iff (r : Regexp) (s : List Char) : matchRunes r s = true ↔ Matches r s := by
  induction s generalizing r with
  | nil => simp only [matchRunes, nullable_iff]
  | cons c cs ih => simp only [matchRunes, ih, step_iff]

end Regexp


/-! ## The two patterns, spelled out -/

theorem digit_test_eq (c : Char) :
    (decide ('0'.toNat ≤ c.toNat) && decide (c.toNat ≤ '9'.toNat)) = c.isDigit := by
  simp only [Char.isDigit, Char.toNat, ge_iff_le, UInt32.le_def]
  rfl

theorem char_eq_of_toNat_eq {c d : Char} (h : c.toNat = d.toNat) : c = d :=
  Char.eq_of_val_eq (UInt32.ext h)

namespace Regexp

theorem inClass_digitClass (c : Char) : inClass c digitClass = c.isDigit := by
  simp only [inClass, digitClass, List.any_cons, List.any_nil, Bool.or_false]
  exact digit_test_eq c

theorem inClass_single (c d : Char) : inClass d [(c, c)] = true ↔ d = c := by
  simp only [inClass, List.any_cons, List.any_nil, Bool.or_false, Bool.and_eq_true,
    decide_eq_true_eq]
  constructor
  · rintro ⟨h1, h2⟩
    exact char_eq_of_toNat_eq (Nat.le_antisymm h2 h1)
  · rintro rfl
    exact ⟨Nat.le_refl _, Nat.le_refl _⟩

/-- A concatenation that starts with a character class consumes one rune of the class. -/
theorem matches_class_concat_iff (rs : List (Char × Char)) (r : Regexp) (w : List Char) :
    Matches (concat (charClass rs) r) w ↔ ∃ c v, w = c :: v ∧ inClass c rs = true ∧ Matches r v := by
  rw [matches_concat_iff]
  constructor
  · rintro ⟨u, v, rfl, h1, h2⟩
    obtain ⟨c, rfl, hc⟩ := (matches_charClass_iff rs u).1 h1
    exact ⟨c, v, rfl, hc, h2⟩
  · rintro ⟨c, v, rfl, hc, h2⟩
    exact ⟨[c], v, rfl, Matches.charClass hc, h2⟩

theorem matches_literal_concat_iff (c : Char) (r : Regexp) (w : List Char) :
    Matches (concat (literal c) r) w ↔ ∃ v, w = c :: v ∧ Matches r v := by
  unfold literal
  rw [matches_class_concat_iff]
  constructor
  · rintro ⟨d, v, rfl, hd, h⟩
    rw [inClass_single] at hd
    subst hd
    exact ⟨v, rfl, h⟩
  · rintro ⟨v, rfl, h⟩
    exact ⟨c, v, rfl, (inClass_single c c).2 rfl, h⟩

theorem matches_concat_assoc_iff (r s t : Regexp) (w : List Char) :
    Matches (concat (concat r s) t) w ↔ Matches (concat r (concat s t)) w := by
  simp only [matches_concat_iff]
  constructor
  · rintro ⟨_, v, rfl, ⟨u1, u2, rfl, h1, h2⟩, h3⟩
    exact ⟨u1, u2 ++ v, List.append_assoc u1 u2 v, h1, u2, v, rfl, h2, h3⟩
  · rintro ⟨u1, _, rfl, h1, u2, v, rfl, h2, h3⟩
    exact ⟨u1 ++ u2, v, (List.append_assoc u1 u2 v).symm, ⟨u1, u2, rfl, h1, h2⟩, h3⟩

theorem matches_emptyMatch_concat_iff (r : Regexp) (w : List Char) :
    Matches (concat emptyMatch r) w ↔ Matches r w := by
  simp only [matches_concat_iff, matches_emptyMatch_iff]
  constructor
  · rintro ⟨_, v, rfl, rfl, h⟩
    exact h
  · intro h
    exact ⟨[], w, rfl, rfl, h⟩

theorem matches_star_class_iff (rs : List (Char × Char)) (w : List Char) :
    Matches (star (charClass rs)) w ↔ ∀ c ∈ w, inClass c rs = true := by
  induction w with
  | nil => exact ⟨fun _ c hc => absurd hc (List.not_mem_nil c), fun _ => Matches.starNil⟩
  | cons a w ih =>
    constructor
    · intro h
      obtain ⟨u, v, rfl, h1, h2⟩ := matches_star_cons h
      obtain ⟨d, hd, hcl⟩ := (matches_charClass_iff rs (a :: u)).1 h1
      have hd2 : a = d ∧ u = [] := by simpa using hd
      obtain ⟨rfl, rfl⟩ := hd2
      have hv := ih.1 h2
      intro c hc
      rcases List.mem_cons.1 hc with rfl | hc
      · exact hcl
      · exact hv c hc
    · intro h
      have h1 : Matches (charClass rs) [a] := Matches.charClass (h a (List.mem_cons_self a w))
      have h2 : Matches (star (charClass rs)) w :=
        ih.2 fun c hc => h c (List.mem_cons_of_mem a hc)
      exact Matches.starCons h1 h2

theorem matches_plus_class_iff (rs : List (Char × Char)) (w : List Char) :
    Matches (plus (charClass rs)) w ↔ w ≠ [] ∧ ∀ c ∈ w, inClass c rs = true := by
  unfold plus
  rw [matches_class_concat_iff]
  constructor
  · rintro ⟨c, v, rfl, hc, h⟩
    refine ⟨List.cons_ne_nil c v, ?_⟩
    intro d hd
    rcases List.mem_cons.1 hd with rfl | hd
    · exact hc
    · exact (matches_star_class_iff rs v).1 h d hd
  · rintro ⟨hne, h⟩
    cases w with
    | nil => exact absurd rfl hne
    | cons c v =>
      exact ⟨c, v, rfl, h c (List.mem_cons_self c v),
        (matches_star_class_iff rs v).2 fun d hd => h d (List.mem_cons_of_mem c hd)⟩

theorem matches_atLeast_class_iff (n : Nat) (rs : List (Char × Char)) (w : List Char) :
    Matches (atLeast n (charClass rs)) w ↔ n ≤ w.length ∧ ∀ c ∈ w, inClass c rs = true := by
  induction n generalizing w with
  | zero =>
    simp only [atLeast, matches_star_class_iff, Nat.zero_le, true_and]
  | succ n ih =>
    simp only [atLeast]
    rw [matches_class_concat_iff]
    constructor
    · rintro ⟨c, v, rfl, hc, h⟩
      obtain ⟨hlen, hall⟩ := (ih v).1 h
      refine ⟨by simpa using hlen, ?_⟩
      intro d hd
      rcases List.mem_cons.1 hd with rfl | hd
      · exact hc
      · exact hall d hd
    · rintro ⟨hlen, h⟩
      cases w with
      | nil => simp at hlen
      | cons c v =>
        exact ⟨c, v, rfl, h c (List.mem_cons_self c v),
          (ih v).2 ⟨by simpa using hlen, fun d hd => h d (List.mem_cons_of_mem c hd)⟩⟩

end Regexp

/-- The language of the email pattern: a non-empty local part, `@`, a non-empty domain part, `.`,
and at least two letters, each part drawn from its class. -/
theorem emailFormat_iff (s : String) :
    EmailFormat s ↔ ∃ loc dom tld : List Char,
      s.data = loc ++ '@' :: (dom ++ '.' :: tld) ∧
      (loc ≠ [] ∧ ∀ c ∈ loc, Regexp.inClass c emailLocalClass = true) ∧
      (dom ≠ [] ∧ ∀ c ∈ dom, Regexp.inClass c emailDomainClass = true) ∧
      (2 ≤ tld.length ∧ ∀ c ∈ tld, Regexp.inClass c letterClass = true) := by
  unfold EmailFormat emailRegex
  rw [Regexp.matches_concat_iff]
  constructor
  · rintro ⟨loc, v, hs, hloc, hv⟩
    obtain ⟨v1, rfl, hv1⟩ := (Regexp.matches_literal_concat_iff _ _ _).1 hv
    obtain ⟨dom, v2, rfl, hdom, hv2⟩ := (Regexp.matches_concat_iff _ _ _).1 hv1
    obtain ⟨tld, rfl, htld⟩ := (Regexp.matches_literal_concat_iff _ _ _).1 hv2
    exact ⟨loc, dom, tld, hs, (Regexp.matches_plus_class_iff _ _).1 hloc,
      (Regexp.matches_plus_class_iff _ _).1 hdom, (Regexp.matches_atLeast_class_iff _ _ _).1 htld⟩
  · rintro ⟨loc, dom, tld, hs, hloc, hdom, htld⟩
    refine ⟨loc, _, hs, (Regexp.matches_plus_class_iff _ _).2 hloc, ?_⟩
    refine (Regexp.matches_literal_concat_iff _ _ _).2 ⟨_, rfl, ?_⟩
    refine (Regexp.matches_concat_iff _ _ _).2
      ⟨dom, _, rfl, (Regexp.matches_plus_class_iff _ _).2 hdom, ?_⟩
    exact (Regexp.matches_literal_concat_iff _ _ _).2
      ⟨_, rfl, (Regexp.matches_atLeast_class_iff _ _ _).2 htld⟩

/-- The language of the phone pattern is the fixed shape `+1(DDD)DDD-DDDD`. -/
theorem matches_phoneRegex_iff (s : String) :
    Regexp.Matches phoneRegex s.data ↔ PhoneFormat s := by
  unfold phoneRegex PhoneFormat
  simp only [Regexp.repeatN, Regexp.matches_concat_assoc_iff, Regexp.matches_emptyMatch_concat_iff,
    Regexp.matches_literal_concat_iff, Regexp.matches_class_concat_iff,
    Regexp.matches_emptyMatch_iff, Regexp.inClass_digitClass]
  constructor
  · rintro ⟨_, h0, _, rfl, _, rfl, a, _, rfl, ha, b, _, rfl, hb, c, _, rfl, hc, _, rfl,
      d, _, rfl, hd, e, _, rfl, he, f, _, rfl, hf, _, rfl, g, _, rfl, hg, h, _, rfl, hh,
      i, _, rfl, hi, j, _, rfl, hj, rfl⟩
    exact ⟨a, b, c, d, e, f, g, h, i, j, ⟨ha, hb, hc, hd, he, hf, hg, hh, hi, hj⟩, h0⟩
  · rintro ⟨a, b, c, d, e, f, g, h, i, j, ⟨ha, hb, hc, hd, he, hf, hg, hh, hi, hj⟩, h0⟩
    exact ⟨_, h0, _, rfl, _, rfl, a, _, rfl, ha, b, _, rfl, hb, c, _, rfl, hc, _, rfl,
      d, _, rfl, hd, e, _, rfl, he, f, _, rfl, hf, _, rfl, g, _, rfl, hg, h, _, rfl, hh,
      i, _, rfl, hi, j, _, rfl, hj, rfl⟩

/-! ## The date layout, spelled out -/

theorem isDigit_zero (c : Char) (l : List Char) : isDigit (c :: l) 0 = c.isDigit := by
  simp only [isDigit, List.get?_cons_zero]
  exact digit_test_eq c

theorem isDigit_one (c d : Char) (l : List Char) : isDigit (c :: d :: l) 1 = d.isDigit := by
  simp only [isDigit, List.get?_cons_succ, List.get?_cons_zero]
  exact digit_test_eq d

theorem skip_eq_some_iff (v rest : List Char) (sep : Char) :
    skip v sep = some rest ↔ v = sep :: rest := by
  cases v with
  | nil => simp [skip]
  | cons c l =>
    simp only [skip]
    by_cases h : c = sep
    · simp [h]
    · simp [h]

theorem getnum_fixed_eq_some_iff (v rest : List Char) (n : Nat) :
    getnum v true = some (n, rest) ↔
      ∃ a b, a.isDigit = true ∧ b.isDigit = true ∧ v = a :: b :: rest ∧
        n = digitVal a * 10 + digitVal b := by
  rcases v with _ | ⟨a, _ | ⟨b, l⟩⟩
  · simp [getnum, isDigit]
  · simp [getnum, isDigit]
  · simp only [getnum, isDigit_zero, isDigit_one]
    by_cases ha : a.isDigit = true
    · by_cases hb : b.isDigit = true
      · simp only [ha, hb, Bool.not_true, Bool.false_eq_true, if_false, Option.some.injEq,
          Prod.mk.injEq, List.cons.injEq]
        constructor
        · rintro ⟨rfl, rfl⟩
          exact ⟨a, b, ha, hb, ⟨rfl, rfl, rfl⟩, rfl⟩
        · rintro ⟨a1, b1, _, _, ⟨rfl, rfl, rfl⟩, rfl⟩
          exact ⟨rfl, rfl⟩
      · refine ⟨fun h => by simp [ha, hb] at h, ?_⟩
        rintro ⟨a1, b1, _, hb1, h, _⟩
        simp only [List.cons.injEq] at h
        obtain ⟨rfl, rfl, rfl⟩ := h
        exact absurd hb1 hb
    · refine ⟨fun h => by simp [ha] at h, ?_⟩
      rintro ⟨a1, b1, ha1, _, h, _⟩
      simp only [List.cons.injEq] at h
      obtain ⟨rfl, rfl, rfl⟩ := h
      exact absurd ha1 ha

theorem atoi_four (y1 y2 y3 y4 : Char) (n : Nat) :
    atoi [y1, y2, y3, y4] = some n ↔
      (y1.isDigit = true ∧ y2.isDigit = true ∧ y3.isDigit = true ∧ y4.isDigit = true) ∧
        n = 1000 * digitVal y1 + 100 * digitVal y2 + 10 * digitVal y3 + digitVal y4 := by
  simp only [atoi, List.all_cons, List.all_nil, Bool.and_true, digit_test_eq, List.foldl_cons,
    List.foldl_nil]
  by_cases h : (y1.isDigit && (y2.isDigit && (y3.isDigit && y4.isDigit))) = true
  · simp only [h, if_true, Option.some.injEq]
    simp only [Bool.and_eq_true] at h
    constructor
    · rintro rfl
      exact ⟨⟨h.1, h.2.1, h.2.2.1, h.2.2.2⟩, by omega⟩
    · rintro ⟨_, rfl⟩
      omega
  · refine ⟨fun h0 => by simp [h] at h0, ?_⟩
    rintro ⟨⟨h1, h2, h3, h4⟩, _⟩
    exact absurd (by simp [h1, h2, h3, h4]) h

/-- The parser accepts exactly the texts `YYYY-MM-DD` that spell an existing calendar date, and
returns that date. -/
theorem Parse_eq_some_iff (s : String) (t : Time) : Parse s = some t ↔ IsoDate s t := by
  unfold Parse IsoDate
  constructor
  · intro h
    rcases hv : s.data with _ | ⟨y1, _ | ⟨y2, _ | ⟨y3, _ | ⟨y4, rest⟩⟩⟩⟩
    · simp [hv] at h
    · simp [hv] at h
    · simp [hv] at h
    · simp [hv] at h
    · simp only [hv, List.length_cons, isDigit_zero, List.take_succ_cons, List.take_zero,
        List.drop_succ_cons, List.drop_zero] at h
      split at h
      · cases h
      · split at h
        · cases h
        · rename_i year hyear
          split at h
          · cases h
          · rename_i v1 hv1
            split at h
            · cases h
            · rename_i month v2 hm
              split at h
              · cases h
              · rename_i hmonth
                split at h
                · cases h
                · rename_i v3 hv3
                  split at h
                  · cases h
                  · rename_i day v4 hd
                    split at h
                    · cases h
                    · rename_i hextra
                      split at h
                      · cases h
                      · rename_i hday
                        obtain ⟨hy, rfl⟩ := (atoi_four y1 y2 y3 y4 year).1 hyear
                        have e1 := (skip_eq_some_iff rest v1 '-').1 hv1
                        obtain ⟨m1, m2, hm1, hm2, e2, rfl⟩ :=
                          (getnum_fixed_eq_some_iff v1 v2 month).1 hm
                        have e3 := (skip_eq_some_iff v2 v3 '-').1 hv3
                        obtain ⟨d1, d2, hd1, hd2, e4, rfl⟩ :=
                          (getnum_fixed_eq_some_iff v3 v4 day).1 hd
                        have e5 : v4 = [] := by
                          cases v4 with
                          | nil => rfl
                          | cons a l => simp at hextra
                        subst e5; subst e4; subst e3; subst e2; subst e1
                        simp only [Option.some.injEq] at h
                        simp only [Bool.or_eq_true, decide_eq_true_eq, not_or, not_lt,
                          Nat.le_zero_eq, not_le] at hmonth hday
                        refine ⟨y1, y2, y3, y4, m1, m2, d1, d2,
                          ⟨hy.1, hy.2.1, hy.2.2.1, hy.2.2.2, hm1, hm2, hd1, hd2⟩, rfl, ?_, ?_⟩
                        · rw [← h]
                          simp only [Time.mk.injEq, true_and]
                          omega
                        · rw [← h]
                          simp only [Time.Valid]
                          omega
  · rintro ⟨y1, y2, y3, y4, m1, m2, d1, d2, ⟨h1, h2, h3, h4, h5, h6, h7, h8⟩, hs, rfl, hvalid⟩
    have hyear := (atoi_four y1 y2 y3 y4 _).2 ⟨⟨h1, h2, h3, h4⟩, rfl⟩
    have hm := (getnum_fixed_eq_some_iff (m1 :: m2 :: '-' :: [d1, d2]) ('-' :: [d1, d2]) _).2
      ⟨m1, m2, h5, h6, rfl, rfl⟩
    have hd := (getnum_fixed_eq_some_iff [d1, d2] [] _).2 ⟨d1, d2, h7, h8, rfl, rfl⟩
    simp only [Time.Valid] at hvalid
    simp only [hs, List.length_cons, List.length_nil, isDigit_zero, h1, List.take_succ_cons,
      List.take_zero, List.drop_succ_cons, List.drop_zero, hyear, skip, hm, hd, if_true]
    have e1 : (10 * digitVal m1 + digitVal m2) = digitVal m1 * 10 + digitVal m2 := by omega
    have e2 : (10 * digitVal d1 + digitVal d2) = digitVal d1 * 10 + digitVal d2 := by omega
    rw [e1, e2] at hvalid
    rw [e1, e2]
    have c1 : (decide (digitVal m1 * 10 + digitVal m2 ≤ 0) ||
        decide (12 < digitVal m1 * 10 + digitVal m2)) = false := by
      simp only [Bool.or_eq_false_iff, decide_eq_false_iff_not]
      omega
    have c2 : (decide (digitVal d1 * 10 + digitVal d2 < 1) ||
        decide (daysIn (digitVal m1 * 10 + digitVal m2)
          ((1000 * digitVal y1 + 100 * digitVal y2 + 10 * digitVal y3 + digitVal y4 : Nat) : Int)
            < digitVal d1 * 10 + digitVal d2)) = false := by
      simp only [Bool.or_eq_false_iff, decide_eq_false_iff_not]
      omega
    rw [c1, c2]
    rfl

/-! ## The validator -/

theorem anyFieldEmpty_iff (req : RegistrationRequest) :
    (req.FirstName == "" || req.LastName == "" || req.Email == "" || req.PhoneNumber == ""
      || req.Password == "" || req.DateOfBirth == "") = true ↔ AnyFieldEmpty req := by
  simp only [AnyFieldEmpty, Bool.or_eq_true, beq_iff_eq, or_assoc]

theorem matchString_emailRegex_iff (s : String) :
    Regexp.MatchString emailRegex s = true ↔ EmailFormat s :=
  Regexp.matchRunes_iff emailRegex s.data

theorem matchString_phoneRegex_iff (s : String) :
    Regexp.MatchString phoneRegex s = true ↔ PhoneFormat s :=
  (Regexp.matchRunes_iff phoneRegex s.data).trans (matches_phoneRegex_iff s)

theorem isAdult_iff_age (now dob : Time) : isAdult now dob = true ↔ 18 ≤ age now dob := by
  simp only [isAdult, age, Time.Year, decide_eq_true_eq, ge_iff_le]
  by_cases h : now.YearDay < dob.YearDay
  · simp only [h, if_true]
  · simp only [h, if_false, sub_zero]

theorem isoDate_unique {s : String} {t u : Time} (ht : IsoDate s t) (hu : IsoDate s u) : t = u := by
  have h1 := (Parse_eq_some_iff s t).2 ht
  have h2 := (Parse_eq_some_iff s u).2 hu
  rw [h1] at h2
  exact Option.some.inj h2

theorem Parse_eq_none_iff (s : String) : Parse s = none ↔ ¬ ∃ t, IsoDate s t := by
  constructor
  · rintro h ⟨t, ht⟩
    rw [(Parse_eq_some_iff s t).2 ht] at h
    cases h
  · intro h
    cases hp : Parse s with
    | none => rfl
    | some t => exact absurd ⟨t, (Parse_eq_some_iff s t).1 hp⟩ h

/-- A string has at least as many bytes as characters. -/
theorem runeCount_le_len (s : String) : runeCount s ≤ len s := by
  obtain ⟨cs⟩ := s
  show cs.length ≤ String.utf8Len cs
  induction cs with
  | nil => exact Nat.le_refl 0
  | cons c cs ih =>
    have := c.utf8Size_pos
    simp only [List.length_cons, String.utf8Len_cons]
    omega

theorem utf8Size_of_ascii (c : Char) (h : c.toNat < 128) : c.utf8Size = 1 := by
  have h2 : c.val ≤ 127 := by
    rw [UInt32.le_def]
    have : c.val.toNat < 128 := h
    show c.val.toNat ≤ 127
    omega
  simp [Char.utf8Size, h2]

/-- On ASCII text bytes and characters coincide, so there the length rule of the code is the
rule on the number of characters. -/
theorem len_eq_runeCount_of_ascii (s : String) (h : ∀ c ∈ s.data, c.toNat < 128) :
    len s = runeCount s := by
  obtain ⟨cs⟩ := s
  show String.utf8Len cs = cs.length
  simp only at h
  induction cs with
  | nil => rfl
  | cons c cs ih =>
    have h1 := utf8Size_of_ascii c (h c (List.mem_cons_self c cs))
    have h2 := ih fun d hd => h d (List.mem_cons_of_mem c hd)
    simp only [List.length_cons, String.utf8Len_cons, h1, h2]

/-- The decision tree of `validateRegistrationInput`: exactly one of seven branches is taken, and
each branch fixes the result. -/
theorem validateRegistrationInput_tree (now : Time) (req : RegistrationRequest) :
    (AnyFieldEmpty req ∧
      validateRegistrationInput now req = some "all fields are required") ∨
    (¬ AnyFieldEmpty req ∧ ¬ EmailFormat req.Email ∧
      validateRegistrationInput now req = some "invalid email format") ∨
    (¬ AnyFieldEmpty req ∧ EmailFormat req.Email ∧ ¬ PhoneFormat req.PhoneNumber ∧
      validateRegistrationInput now req = some "invalid phone number format") ∨
    (¬ AnyFieldEmpty req ∧ EmailFormat req.Email ∧ PhoneFormat req.PhoneNumber ∧
      len req.Password < 8 ∧
      validateRegistrationInput now req = some "password must be at least 8 characters long") ∨
    (¬ AnyFieldEmpty req ∧ EmailFormat req.Email ∧ PhoneFormat req.PhoneNumber ∧
      8 ≤ len req.Password ∧ (¬ ∃ dob, IsoDate req.DateOfBirth dob) ∧
      validateRegistrationInput now req =
        some "invalid date of birth format, expected YYYY-MM-DD") ∨
    (¬ AnyFieldEmpty req ∧ EmailFormat req.Email ∧ PhoneFormat req.PhoneNumber ∧
      8 ≤ len req.Password ∧ (∃ dob, IsoDate req.DateOfBirth dob ∧ age now dob < 18) ∧
      validateRegistrationInput now req = some "user must be at least 18 years old") ∨
    (¬ AnyFieldEmpty req ∧ EmailFormat req.Email ∧ PhoneFormat req.PhoneNumber ∧
      8 ≤ len req.Password ∧ (∃ dob, IsoDate req.DateOfBirth dob ∧ 18 ≤ age now dob) ∧
      validateRegistrationInput now req = none) := by
  unfold validateRegistrationInput
  by_cases h1 : AnyFieldEmpty req
  · left
    exact ⟨h1, by rw [if_pos ((anyFieldEmpty_iff req).2 h1)]⟩
  right
  rw [if_neg (fun h => h1 ((anyFieldEmpty_iff req).1 h))]
  by_cases h2 : EmailFormat req.Email
  swap
  · left
    have e : Regexp.MatchString emailRegex req.Email = false := by
      rw [← Bool.not_eq_true, matchString_emailRegex_iff]; exact h2
    exact ⟨h1, h2, by simp only [e, Bool.not_false, if_true]⟩
  right
  have e2 : Regexp.MatchString emailRegex req.Email = true := (matchString_emailRegex_iff _).2 h2
  simp only [e2, Bool.not_true, Bool.false_eq_true, if_false]
  by_cases h3 : PhoneFormat req.PhoneNumber
  swap
  · left
    have e : Regexp.MatchString phoneRegex req.PhoneNumber = false := by
      rw [← Bool.not_eq_true, matchString_phoneRegex_iff]; exact h3
    exact ⟨h1, h2, h3, by simp only [e, Bool.not_false, if_true]⟩
  right
  have e3 : Regexp.MatchString phoneRegex req.PhoneNumber = true :=
    (matchString_phoneRegex_iff _).2 h3
  simp only [e3, Bool.not_true, Bool.false_eq_true, if_false]
  by_cases h4 : len req.Password < 8
  · left
    exact ⟨h1, h2, h3, h4, by rw [if_pos h4]⟩
  right
  rw [if_neg h4]
  have h4 : 8 ≤ len req.Password := Nat.le_of_not_lt h4
  cases hp : Parse req.DateOfBirth with
  | none =>
    left
    exact ⟨h1, h2, h3, h4, (Parse_eq_none_iff _).1 hp, rfl⟩
  | some dob =>
    right
    have hd : IsoDate req.DateOfBirth dob := (Parse_eq_some_iff _ _).1 hp
    by_cases h6 : isAdult now dob = true
    · right
      refine ⟨h1, h2, h3, h4, ⟨dob, hd, (isAdult_iff_age now dob).1 h6⟩, ?_⟩
      simp only [h6, Bool.not_true, Bool.false_eq_true, if_false]
    · left
      have h7 : age now dob < 18 := by
        have := mt (isAdult_iff_age now dob).2 h6
        omega
      refine ⟨h1, h2, h3, h4, ⟨dob, hd, h7⟩, ?_⟩
      have e6 : isAdult now dob = false := by simpa using h6
      simp only [e6, Bool.not_false, if_true]

/-! ## Claims about the validator -/

/-- Claim C1. For every request and every current date, `validateRegistrationInput` returns the
message of the first violated rule, in the fixed order: (1) some field is the empty string,
(2) the email is not in the language of the email pattern, (3) the phone number is not of the
shape `+1(DDD)DDD-DDDD`, (4) the password is shorter than 8 (`len`, the byte length the code
measures), (5) the date of birth is not an existing `YYYY-MM-DD` calendar date, (6) the age,
current year minus birth year minus one if the current day of the year is before that of the
birth, is below 18; and it returns nil exactly when no rule is violated. -/
theorem validateRegistrationInput_first_violated_rule (now : Time) (req : RegistrationRequest) :
    (AnyFieldEmpty req →
      validateRegistrationInput now req = some "all fields are required") ∧
    (¬ AnyFieldEmpty req → ¬ EmailFormat req.Email →
      validateRegistrationInput now req = some "invalid email format") ∧
    (¬ AnyFieldEmpty req → EmailFormat req.Email → ¬ PhoneFormat req.PhoneNumber →
      validateRegistrationInput now req = some "invalid phone number format") ∧
    (¬ AnyFieldEmpty req → EmailFormat req.Email → PhoneFormat req.PhoneNumber →
      len req.Password < 8 →
      validateRegistrationInput now req = some "password must be at least 8 characters long") ∧
    (¬ AnyFieldEmpty req → EmailFormat req.Email → PhoneFormat req.PhoneNumber →
      8 ≤ len req.Password → (¬ ∃ dob, IsoDate req.DateOfBirth dob) →
      validateRegistrationInput now req =
        some "invalid date of birth format, expected YYYY-MM-DD") ∧
    (¬ AnyFieldEmpty req → EmailFormat req.Email → PhoneFormat req.PhoneNumber →
      8 ≤ len req.Password → ∀ dob, IsoDate req.DateOfBirth dob → age now dob < 18 →
      validateRegistrationInput now req = some "user must be at least 18 years old") ∧
    (validateRegistrationInput now req = none ↔
      ¬ AnyFieldEmpty req ∧ EmailFormat req.Email ∧ PhoneFormat req.PhoneNumber ∧
        8 ≤ len req.Password ∧ ∃ dob, IsoDate req.DateOfBirth dob ∧ 18 ≤ age now dob) := by
  have T := validateRegistrationInput_tree now req
  have U : ∀ d1 d2, IsoDate req.DateOfBirth d1 → IsoDate req.DateOfBirth d2 → d1 = d2 :=
    fun _ _ h1 h2 => isoDate_unique h1 h2
  refine ⟨?_, ?_, ?_, ?_, ?_, ?_, ?_⟩
  · intro a
    rcases T with h | h | h | h | h | h | h
    · exact h.2
    all_goals exact absurd a h.1
  · intro a b
    rcases T with h | h | h | h | h | h | h
    · exact absurd h.1 a
    · exact h.2.2
    all_goals exact absurd h.2.1 b
  · intro a b c
    rcases T with h | h | h | h | h | h | h
    · exact absurd h.1 a
    · exact absurd b h.2.1
    · exact h.2.2.2
    all_goals exact absurd h.2.2.1 c
  · intro a b c d
    rcases T with h | h | h | h | h | h | h
    · exact absurd h.1 a
    · exact absurd b h.2.1
    · exact absurd c h.2.2.1
    · exact h.2.2.2.2
    all_goals exact absurd h.2.2.2.1 (Nat.not_le_of_lt d)
  · intro a b c d e
    rcases T with h | h | h | h | h | h | h
    · exact absurd h.1 a
    · exact absurd b h.2.1
    · exact absurd c h.2.2.1
    · exact absurd d (Nat.not_le_of_lt h.2.2.2.1)
    · exact h.2.2.2.2.2
    · obtain ⟨dob, hd, _⟩ := h.2.2.2.2.1
      exact absurd ⟨dob, hd⟩ e
    · obtain ⟨dob, hd, _⟩ := h.2.2.2.2.1
      exact absurd ⟨dob, hd⟩ e
  · intro a b c d dob hdob hage
    rcases T with h | h | h | h | h | h | h
    · exact absurd h.1 a
    · exact absurd b h.2.1
    · exact absurd c h.2.2.1
    · exact absurd d (Nat.not_le_of_lt h.2.2.2.1)
    · exact absurd ⟨dob, hdob⟩ h.2.2.2.2.1
    · exact h.2.2.2.2.2
    · obtain ⟨dob2, hd, h18⟩ := h.2.2.2.2.1
      rw [U dob dob2 hdob hd] at hage
      omega
  · constructor
    · intro hv
      rcases T with h | h | h | h | h | h | h
      · rw [h.2] at hv; cases hv
      · rw [h.2.2] at hv; cases hv
      · rw [h.2.2.2] at hv; cases hv
      · rw [h.2.2.2.2] at hv; cases hv
      · rw [h.2.2.2.2.2] at hv; cases hv
      · rw [h.2.2.2.2.2] at hv; cases hv
      · exact ⟨h.1, h.2.1, h.2.2.1, h.2.2.2.1, h.2.2.2.2.1⟩
    · rintro ⟨a, b, c, d, dob, hdob, h18⟩
      rcases T with h | h | h | h | h | h | h
      · exact absurd h.1 a
      · exact absurd b h.2.1
      · exact absurd c h.2.2.1
      · exact absurd d (Nat.not_le_of_lt h.2.2.2.1)
      · exact absurd ⟨dob, hdob⟩ h.2.2.2.2.1
      · obtain ⟨dob2, hd, hlt⟩ := h.2.2.2.2.1
        rw [U dob dob2 hdob hd] at h18
        omega
      · exact h.2.2.2.2.2

theorem validateRegistrationInput_first_violated_rule_witness :
    (AnyFieldEmpty { johnDoe with Password := "", Email := "invalid-email" } ∧
      validateRegistrationInput ⟨2026, 11, 4⟩
        { johnDoe with Password := "", Email := "invalid-email" } =
        some "all fields are required") ∧
    ((¬ AnyFieldEmpty { johnDoe with Email := "invalid-email", PhoneNumber := "invalid-phone" } ∧
        ¬ EmailFormat "invalid-email") ∧
      validateRegistrationInput ⟨2026, 11, 4⟩
        { johnDoe with Email := "invalid-email", PhoneNumber := "invalid-phone" } =
        some "invalid email format") ∧
    ((¬ AnyFieldEmpty { johnDoe with PhoneNumber := "invalid-phone", Password := "short" } ∧
        EmailFormat "johndoe@example.com" ∧ ¬ PhoneFormat "invalid-phone") ∧
      validateRegistrationInput ⟨2026, 11, 4⟩
        { johnDoe with PhoneNumber := "invalid-phone", Password := "short" } =
        some "invalid phone number format") ∧
    ((¬ AnyFieldEmpty { johnDoe with Password := "short", DateOfBirth := "invalid-date" } ∧
        EmailFormat "johndoe@example.com" ∧ PhoneFormat "+1(123)456-7890" ∧ len "short" < 8) ∧
      validateRegistrationInput ⟨2026, 11, 4⟩
        { johnDoe with Password := "short", DateOfBirth := "invalid-date" } =
        some "password must be at least 8 characters long") ∧
    ((¬ AnyFieldEmpty { johnDoe with DateOfBirth := "2023-02-29" } ∧
        EmailFormat "johndoe@example.com" ∧ PhoneFormat "+1(123)456-7890" ∧
        8 ≤ len "validpassword" ∧ ¬ ∃ dob, IsoDate "2023-02-29" dob) ∧
      validateRegistrationInput ⟨2026, 11, 4⟩ { johnDoe with DateOfBirth := "2023-02-29" } =
        some "invalid date of birth format, expected YYYY-MM-DD") ∧
    ((¬ AnyFieldEmpty minorPayload ∧
        EmailFormat "johndoe@example.com" ∧ PhoneFormat "+1(123)456-7890" ∧
        8 ≤ len "validpassword" ∧ IsoDate "2010-01-01" ⟨2010, 1, 1⟩ ∧
        age ⟨2026, 11, 4⟩ ⟨2010, 1, 1⟩ < 18) ∧
      validateRegistrationInput ⟨2026, 11, 4⟩ minorPayload =
        some "user must be at least 18 years old") ∧
    (validateRegistrationInput ⟨2026, 11, 4⟩ johnDoe = none ∧
      ¬ AnyFieldEmpty johnDoe ∧ EmailFormat johnDoe.Email ∧ PhoneFormat johnDoe.PhoneNumber ∧
        8 ≤ len johnDoe.Password ∧
        ∃ dob, IsoDate johnDoe.DateOfBirth dob ∧ 18 ≤ age ⟨2026, 11, 4⟩ dob) :=
  have hE : EmailFormat "johndoe@example.com" := (matchString_emailRegex_iff _).1 (by decide)
  have hnE : ¬ EmailFormat "invalid-email" :=
    fun h => absurd ((matchString_emailRegex_iff _).2 h) (by decide)
  have hP : PhoneFormat "+1(123)456-7890" := (matchString_phoneRegex_iff _).1 (by decide)
  have hnP : ¬ PhoneFormat "invalid-phone" :=
    fun h => absurd ((matchString_phoneRegex_iff _).2 h) (by decide)
  have hnD : ¬ ∃ dob, IsoDate "2023-02-29" dob := (Parse_eq_none_iff _).1 (by decide)
  have hD : IsoDate "2010-01-01" ⟨2010, 1, 1⟩ := (Parse_eq_some_iff _ _).1 (by decide)
  ⟨⟨by decide,
      (validateRegistrationInput_first_violated_rule ⟨2026, 11, 4⟩ _).1 (by decide)⟩,
    ⟨⟨by decide, hnE⟩,
      (validateRegistrationInput_first_violated_rule ⟨2026, 11, 4⟩ _).2.1 (by decide) hnE⟩,
    ⟨⟨by decide, hE, hnP⟩,
      (validateRegistrationInput_first_violated_rule ⟨2026, 11, 4⟩ _).2.2.1
        (by decide) hE hnP⟩,
    ⟨⟨by decide, hE, hP, by decide⟩,
      (validateRegistrationInput_first_violated_rule ⟨2026, 11, 4⟩ _).2.2.2.1
        (by decide) hE hP (by decide)⟩,
    ⟨⟨by decide, hE, hP, by decide, hnD⟩,
      (validateRegistrationInput_first_violated_rule ⟨2026, 11, 4⟩ _).2.2.2.2.1
        (by decide) hE hP (by decide) hnD⟩,
    ⟨⟨by decide, hE, hP, by decide, hD, by decide⟩,
      (validateRegistrationInput_first_violated_rule ⟨2026, 11, 4⟩ minorPayload).2.2.2.2.2.1
        (by decide) hE hP (by decide) ⟨2010, 1, 1⟩ hD (by decide)⟩,
    ⟨by decide,
      (validateRegistrationInput_first_violated_rule ⟨2026, 11, 4⟩ johnDoe).2.2.2.2.2.2.1
        (by decide)⟩⟩

/-- Claim C2, as the code has it: whenever one of the six fields is the empty string the
validator returns "all fields are required", whatever the other fields and the date. -/
theorem validateRegistrationInput_empty_field (now : Time) (req : RegistrationRequest)
    (h : AnyFieldEmpty req) :
    validateRegistrationInput now req = some "all fields are required" := by
  rcases validateRegistrationInput_tree now req with t | t | t | t | t | t | t
  · exact t.2
  all_goals exact absurd h t.1

theorem validateRegistrationInput_empty_field_witness :
    AnyFieldEmpty ⟨"John", "", "johndoe@example.com", "not a phone", "short", "1990-01-01"⟩ ∧
      validateRegistrationInput ⟨2026, 11, 4⟩
        ⟨"John", "", "johndoe@example.com", "not a phone", "short", "1990-01-01"⟩ =
        some "all fields are required" :=
  ⟨Or.inr (Or.inl rfl),
    validateRegistrationInput_empty_field ⟨2026, 11, 4⟩
      ⟨"John", "", "johndoe@example.com", "not a phone", "short", "1990-01-01"⟩
      (Or.inr (Or.inl rfl))⟩

/-- Claim C2 as stated fails: a first name of one space is empty after trimming, yet the request
is not rejected with "all fields are required"; the validator accepts it. -/
theorem whitespace_field_not_rejected :
    AnyFieldBlank ⟨" ", "Doe", "johndoe@example.com", "+1(123)456-7890", "validpassword",
        "1990-01-01"⟩ ∧
      validateRegistrationInput ⟨2026, 11, 4⟩
        ⟨" ", "Doe", "johndoe@example.com", "+1(123)456-7890", "validpassword", "1990-01-01"⟩ =
        none ∧
      validateRegistrationInput ⟨2026, 11, 4⟩
        ⟨" ", "Doe", "johndoe@example.com", "+1(123)456-7890", "validpassword", "1990-01-01"⟩ ≠
        some "all fields are required" := by
  decide

/-- Claim C4 at the failing input: the password of four two-byte characters has fewer than 8
characters but 8 bytes, and the validator, which compares the byte length, accepts the request
instead of returning "password must be at least 8 characters long"; the password of the test,
`short`, is rejected. -/
theorem short_multibyte_password_accepted :
    (runeCount "éééé" = 4 ∧ len "éééé" = 8) ∧
      validateRegistrationInput ⟨2026, 11, 4⟩
        ⟨"John", "Doe", "johndoe@example.com", "+1(123)456-7890", "éééé", "1990-01-01"⟩ = none ∧
      validateRegistrationInput ⟨2026, 11, 4⟩
        ⟨"John", "Doe", "johndoe@example.com", "+1(123)456-7890", "short", "1990-01-01"⟩ =
        some "password must be at least 8 characters long" := by
  decide

/-- Claim C3 at the failing inputs. Born 2006-03-01 and checked on 2024-02-29, a person is still
17, but both dates are day 60 of their year and the request is accepted; born 2008-03-01 and
checked on 2026-03-01, a person is 18 that day, but day 60 is before day 61 and the request is
rejected with "user must be at least 18 years old". -/
theorem isAdult_leap_year_divergence :
    (Parse "2006-03-01" = some ⟨2006, 3, 1⟩ ∧
      (Time.YearDay ⟨2024, 2, 29⟩ = 60 ∧ Time.YearDay ⟨2006, 3, 1⟩ = 60) ∧
      reached18 ⟨2024, 2, 29⟩ ⟨2006, 3, 1⟩ = false ∧
      isAdult ⟨2024, 2, 29⟩ ⟨2006, 3, 1⟩ = true ∧
      validateRegistrationInput ⟨2024, 2, 29⟩
        ⟨"John", "Doe", "johndoe@example.com", "+1(123)456-7890", "validpassword", "2006-03-01"⟩ =
        none) ∧
    (Parse "2008-03-01" = some ⟨2008, 3, 1⟩ ∧
      (Time.YearDay ⟨2026, 3, 1⟩ = 60 ∧ Time.YearDay ⟨2008, 3, 1⟩ = 61) ∧
      reached18 ⟨2026, 3, 1⟩ ⟨2008, 3, 1⟩ = true ∧
      isAdult ⟨2026, 3, 1⟩ ⟨2008, 3, 1⟩ = false ∧
      validateRegistrationInput ⟨2026, 3, 1⟩
        ⟨"John", "Doe", "johndoe@example.com", "+1(123)456-7890", "validpassword", "2008-03-01"⟩ =
        some "user must be at least 18 years old") := by
  decide

/-! ## Day of the year and the age check -/

/-- Between two years of the same kind (both leap or both common) the day of the year orders
dates as month and day do. -/
theorem YearDay_lt_iff {a b : Time} (ha : a.Valid) (hb : b.Valid)
    (hl : isLeap a.year = isLeap b.year) :
    a.YearDay < b.YearDay ↔ a.month < b.month ∨ (a.month = b.month ∧ a.day < b.day) := by
  obtain ⟨y, m, d⟩ := a
  obtain ⟨y2, m2, d2⟩ := b
  simp only [Time.Valid] at ha hb
  simp only at hl
  obtain ⟨ha1, ha2, ha3, ha4⟩ := ha
  obtain ⟨hb1, hb2, hb3, hb4⟩ := hb
  simp only [Time.YearDay]
  simp only [daysIn] at ha4 hb4
  rw [← hl] at hb4 ⊢
  cases hl2 : isLeap y <;> simp only [hl2] at ha4 hb4 ⊢
  all_goals
    interval_cases m <;> interval_cases m2 <;>
      simp +decide only [daysBefore, Bool.and_true, Bool.and_false, Bool.false_and,
        Bool.true_and, if_true, if_false, Bool.false_eq_true, false_or, true_or, true_and,
        false_and, or_false, iff_true, iff_false] at ha4 hb4 ⊢ <;> omega

/-- Within one year the day of the year grows with the date. -/
theorem YearDay_le_of_le {a b : Time} (ha : a.Valid) (hb : b.Valid) (hy : a.year = b.year)
    (h : a.month < b.month ∨ (a.month = b.month ∧ a.day ≤ b.day)) : a.YearDay ≤ b.YearDay := by
  have key := YearDay_lt_iff hb ha (by rw [hy])
  apply Nat.le_of_not_lt
  intro hlt
  have := key.1 hlt
  omega

/-- Where the birth year and the current year are of the same kind, `isAdult` is the comparison
with the 18th birthday. -/
theorem isAdult_eq_reached18_of_isLeap_eq (now dob : Time) (hn : now.Valid) (hd : dob.Valid)
    (hl : isLeap now.year = isLeap dob.year) : isAdult now dob = reached18 now dob := by
  have key := YearDay_lt_iff hn hd hl
  rw [Bool.eq_iff_iff, isAdult_iff_age]
  unfold age reached18
  simp only [Bool.or_eq_true, Bool.and_eq_true, decide_eq_true_eq]
  by_cases h : now.YearDay < dob.YearDay
  · have h2 := key.1 h
    simp only [h, if_true]
    omega
  · have h2 := mt key.2 h
    simp only [h, if_false]
    omega

theorem isAdult_mono_dob (now d1 d2 : Time) (v1 : d1.Valid) (v2 : d2.Valid)
    (hle : Time.le d1 d2) (h : isAdult now d2 = true) : isAdult now d1 = true := by
  rw [isAdult_iff_age] at h ⊢
  unfold age at h ⊢
  rcases hle with hlt | ⟨hy, hmd⟩
  · split at h <;> split <;> omega
  · have := YearDay_le_of_le v1 v2 hy hmd
    split at h <;> split <;> omega

theorem isAdult_mono_now (dob n1 n2 : Time) (v1 : n1.Valid) (v2 : n2.Valid)
    (hle : Time.le n1 n2) (h : isAdult n1 dob = true) : isAdult n2 dob = true := by
  rw [isAdult_iff_age] at h ⊢
  unfold age at h ⊢
  rcases hle with hlt | ⟨hy, hmd⟩
  · split at h <;> split <;> omega
  · have := YearDay_le_of_le v1 v2 hy hmd
    split at h <;> split <;> omega

/-- Claim C10. The age check is monotone: at a fixed current date, if a date of birth is accepted
then every earlier valid date of birth is accepted; for a fixed date of birth, if it is accepted
at a current date then it is accepted at every later current date. -/
theorem isAdult_monotone :
    (∀ now d1 d2 : Time, d1.Valid → d2.Valid → Time.le d1 d2 →
      isAdult now d2 = true → isAdult now d1 = true) ∧
    (∀ dob n1 n2 : Time, n1.Valid → n2.Valid → Time.le n1 n2 →
      isAdult n1 dob = true → isAdult n2 dob = true) :=
  ⟨isAdult_mono_dob, isAdult_mono_now⟩

theorem isAdult_monotone_witness :
    ((Time.Valid ⟨2008, 1, 15⟩ ∧ Time.Valid ⟨2008, 2, 20⟩ ∧
        Time.le ⟨2008, 1, 15⟩ ⟨2008, 2, 20⟩ ∧ isAdult ⟨2026, 11, 4⟩ ⟨2008, 2, 20⟩ = true) ∧
      isAdult ⟨2026, 11, 4⟩ ⟨2008, 1, 15⟩ = true) ∧
    ((Time.Valid ⟨2026, 11, 4⟩ ∧ Time.Valid ⟨2027, 1, 1⟩ ∧
        Time.le ⟨2026, 11, 4⟩ ⟨2027, 1, 1⟩ ∧ isAdult ⟨2026, 11, 4⟩ ⟨2008, 2, 20⟩ = true) ∧
      isAdult ⟨2027, 1, 1⟩ ⟨2008, 2, 20⟩ = true) :=
  ⟨⟨⟨by decide, by decide, by decide, by decide⟩,
      isAdult_monotone.1 ⟨2026, 11, 4⟩ ⟨2008, 1, 15⟩ ⟨2008, 2, 20⟩
        (by decide) (by decide) (by decide) (by decide)⟩,
    ⟨⟨by decide, by decide, by decide, by decide⟩,
      isAdult_monotone.2 ⟨2008, 2, 20⟩ ⟨2026, 11, 4⟩ ⟨2027, 1, 1⟩
        (by decide) (by decide) (by decide) (by decide)⟩⟩

/-- The result of the validator on a request that passes the first five rules. -/
theorem validateRegistrationInput_of_parse (now : Time) (req : RegistrationRequest) (dob : Time)
    (h1 : ¬ AnyFieldEmpty req) (h2 : Regexp.MatchString emailRegex req.Email = true)
    (h3 : Regexp.MatchString phoneRegex req.PhoneNumber = true) (h4 : 8 ≤ len req.Password)
    (h5 : Parse req.DateOfBirth = some dob) :
    validateRegistrationInput now req =
      if isAdult now dob = true then none else some "user must be at least 18 years old" := by
  unfold validateRegistrationInput
  rw [if_neg (fun h => h1 ((anyFieldEmpty_iff req).1 h))]
  simp only [h2, h3, Bool.not_true, Bool.false_eq_true, if_false]
  rw [if_neg (Nat.not_lt_of_le h4)]
  simp only [h5]
  cases isAdult now dob <;> simp

/-- A request accepted at one date is accepted at every later date. -/
theorem validateRegistrationInput_mono_now (n1 n2 : Time) (req : RegistrationRequest)
    (v1 : n1.Valid) (v2 : n2.Valid) (hle : Time.le n1 n2)
    (h : validateRegistrationInput n1 req = none) : validateRegistrationInput n2 req = none := by
  rcases validateRegistrationInput_tree n1 req with t | t | t | t | t | t | t
  · rw [t.2] at h; cases h
  · rw [t.2.2] at h; cases h
  · rw [t.2.2.2] at h; cases h
  · rw [t.2.2.2.2] at h; cases h
  · rw [t.2.2.2.2.2] at h; cases h
  · rw [t.2.2.2.2.2] at h; cases h
  · obtain ⟨a, b, c, d, ⟨dob, hdob, h18⟩, _⟩ := t
    have e := validateRegistrationInput_of_parse n2 req dob a
      ((matchString_emailRegex_iff _).2 b) ((matchString_phoneRegex_iff _).2 c) d
      ((Parse_eq_some_iff _ _).2 hdob)
    rw [e, if_pos (isAdult_mono_now dob n1 n2 v1 v2 hle ((isAdult_iff_age n1 dob).2 h18))]

/-! ## Claims about the handler -/

theorem validateRegistrationInput_minorPayload (now : Time) (h : now.year < 2028) :
    validateRegistrationInput now minorPayload = some "user must be at least 18 years old" := by
  have e := validateRegistrationInput_of_parse now minorPayload ⟨2010, 1, 1⟩
    (by decide) (by decide) (by decide) (by decide) (by decide)
  rw [e, if_neg]
  intro ha
  rw [isAdult_iff_age] at ha
  unfold age at ha
  simp only at ha
  split at ha <;> omega

/-- From 2028-01-01 on the payload born 2010-01-01 is of age for the validator: the bound on the
current date in the statement below cannot be dropped. -/
theorem validateRegistrationInput_minorPayload_at_2028 :
    validateRegistrationInput ⟨2028, 1, 1⟩ minorPayload = none := by
  decide

/-- Claim C5. Whenever the validator returns an error on a decoded request, the handler answers
400 with that error's message, whatever the database handle (present, nil or failing), and makes
no call at all: no existence query, no hashing, no insert; the handle is left as it was. In
particular the payload born 2010-01-01 gets 400 "user must be at least 18 years old" with no
call, at every current date before 2028-01-01. -/
theorem RegisterUserHandler_validation_error :
    (∀ (σ : Type) (env : Env) (db : Option (DB σ)) (req : RegistrationRequest) (msg : String),
      validateRegistrationInput (env.Now 0) req = some msg →
        RegisterUserHandler env db (.ok req) = ⟨⟨400, Body.text msg⟩, [], db⟩) ∧
    (∀ (σ : Type) (env : Env) (db : Option (DB σ)), (env.Now 0).year < 2028 →
      RegisterUserHandler env db (.ok minorPayload) =
        ⟨⟨400, Body.text "user must be at least 18 years old"⟩, [], db⟩) := by
  constructor
  · intro σ env db req msg h
    simp only [RegisterUserHandler, h]
    rfl
  · intro σ env db h
    simp only [RegisterUserHandler, validateRegistrationInput_minorPayload (env.Now 0) h]
    rfl

theorem RegisterUserHandler_validation_error_witness :
    (validateRegistrationInput (sampleEnv.Now 0) minorPayload =
        some "user must be at least 18 years old" ∧
      RegisterUserHandler sampleEnv (some (tableDB [])) (.ok minorPayload) =
        ⟨⟨400, Body.text "user must be at least 18 years old"⟩, [], some (tableDB [])⟩) ∧
    ((sampleEnv.Now 0).year < 2028 ∧
      RegisterUserHandler sampleEnv (none : Option (DB Unit)) (.ok minorPayload) =
        ⟨⟨400, Body.text "user must be at least 18 years old"⟩, [], none⟩) :=
  ⟨⟨by decide,
      RegisterUserHandler_validation_error.1 (List UserRow) sampleEnv (some (tableDB []))
        minorPayload "user must be at least 18 years old" (by decide)⟩,
    ⟨by decide, RegisterUserHandler_validation_error.2 Unit sampleEnv none (by decide)⟩⟩

/-- The run of the handler on a valid request whose email the database reports as present. -/
theorem RegisterUserHandler_of_found {σ : Type} (env : Env) (d : DB σ)
    (req : RegistrationRequest)
    (hv : validateRegistrationInput (env.Now 0) req = none)
    (hq : d.QueryRow d.state req.Email = .ok true) :
    RegisterUserHandler env (some d) (.ok req) =
      ⟨⟨400, Body.text "Email already in use"⟩, [Call.QueryRow req.Email], some d⟩ := by
  simp only [RegisterUserHandler, hv, hq, if_true]
  rfl

/-- Against a table that holds a row with the email of the request, every later submission of the
request is answered 400 "Email already in use" and the table stays as it is. -/
theorem resubmit_of_found (req : RegistrationRequest) (rows : List UserRow) (n1 : Time)
    (v1 : n1.Valid) (hv : validateRegistrationInput n1 req = none)
    (hq : rows.any (fun r => r.email == req.Email) = true) (envs : List Env)
    (henvs : ∀ e ∈ envs, (e.Now 0).Valid ∧ Time.le n1 (e.Now 0)) :
    resubmit req envs (some (tableDB rows)) =
      (envs.map fun _ => ⟨400, Body.text "Email already in use"⟩, some (tableDB rows)) := by
  induction envs with
  | nil => rfl
  | cons e es ih =>
    have he := henvs e (List.mem_cons_self e es)
    have hv2 := validateRegistrationInput_mono_now n1 (e.Now 0) req v1 he.1 he.2 hv
    have hrun := RegisterUserHandler_of_found e (tableDB rows) req hv2
      (by simp only [tableDB, hq])
    have ih2 := ih fun x hx => henvs x (List.mem_cons_of_mem e hx)
    simp only [resubmit, hrun, ih2, List.map_cons]

/-- Claim C8. Over the table modelled as the list of inserted rows (the existence query is true
exactly when some row has the email, the insert adds the row, no statement fails): if handling a
request returned 201, the table then holds exactly one row with the email of the request, one
more than before; handling the same request again, at the same or a later date, returns
400 "Email already in use" with the existence query as only call and leaves the table unchanged;
so after any number of further submissions the table is the same and still holds exactly one row
with that email. -/
theorem resubmission_rejected (env1 : Env) (rows : List UserRow) (req : RegistrationRequest)
    (v1 : (env1.Now 0).Valid)
    (h201 : (RegisterUserHandler env1 (some (tableDB rows)) (.ok req)).response.status = 201) :
    ∃ row : UserRow,
      row.email = req.Email ∧
      (RegisterUserHandler env1 (some (tableDB rows)) (.ok req)).db =
        some (tableDB (rows ++ [row])) ∧
      (rows ++ [row]).countP (fun r => r.email == req.Email) = 1 ∧
      (∀ env2 : Env, (env2.Now 0).Valid → Time.le (env1.Now 0) (env2.Now 0) →
        RegisterUserHandler env2 (some (tableDB (rows ++ [row]))) (.ok req) =
          ⟨⟨400, Body.text "Email already in use"⟩, [Call.QueryRow req.Email],
            some (tableDB (rows ++ [row]))⟩) ∧
      (∀ envs : List Env, (∀ e ∈ envs, (e.Now 0).Valid ∧ Time.le (env1.Now 0) (e.Now 0)) →
        resubmit req envs (some (tableDB (rows ++ [row]))) =
          (envs.map fun _ => ⟨400, Body.text "Email already in use"⟩,
            some (tableDB (rows ++ [row])))) := by
  cases hv : validateRegistrationInput (env1.Now 0) req with
  | some msg =>
    simp [RegisterUserHandler, hv, Error, StatusBadRequest] at h201
  | none =>
    cases hany : rows.any (fun r => r.email == req.Email) with
    | true =>
      simp [RegisterUserHandler, hv, tableDB, hany, Error, StatusBadRequest] at h201
    | false =>
      cases hh : env1.GenerateFromPassword req.Password with
      | error e =>
        simp [RegisterUserHandler, hv, tableDB, hany, hh, Error, StatusInternalServerError]
          at h201
      | ok hashed =>
        have hq : (rows ++ [(⟨env1.NewString, req.FirstName, req.LastName, req.Email,
            req.PhoneNumber, hashed, req.DateOfBirth, true, env1.Now 1, env1.Now 2⟩ : UserRow)]).any
            (fun r => r.email == req.Email) = true := by
          simp only [List.any_append, List.any_cons, List.any_nil, beq_self_eq_true,
            Bool.or_false, Bool.or_true]
        refine ⟨⟨env1.NewString, req.FirstName, req.LastName, req.Email, req.PhoneNumber,
          hashed, req.DateOfBirth, true, env1.Now 1, env1.Now 2⟩, rfl, ?_, ?_, ?_, ?_⟩
        · simp only [RegisterUserHandler, hv, tableDB, hany, hh]
          cases env1.Encode [("message", "User created successfully")] <;> rfl
        · have h0 : rows.countP (fun r => r.email == req.Email) = 0 := by
            rw [List.countP_eq_zero]
            intro r hr hre
            have : rows.any (fun r => r.email == req.Email) = true :=
              List.any_eq_true.2 ⟨r, hr, hre⟩
            rw [hany] at this
            cases this
          simp only [List.countP_append, h0, List.countP_cons, List.countP_nil,
            beq_self_eq_true, if_true]
        · intro env2 v2 hle
          exact RegisterUserHandler_of_found env2 _ req
            (validateRegistrationInput_mono_now _ _ req v1 v2 hle hv)
            (by simp only [tableDB, hq])
        · intro envs henvs
          exact resubmit_of_found req _ (env1.Now 0) v1 hv hq envs henvs

theorem resubmission_rejected_witness :
    ((sampleEnv.Now 0).Valid ∧
      (RegisterUserHandler sampleEnv (some (tableDB [])) (.ok johnDoe)).response.status = 201) ∧
    ∃ row : UserRow,
      row.email = johnDoe.Email ∧
      (RegisterUserHandler sampleEnv (some (tableDB [])) (.ok johnDoe)).db =
        some (tableDB ([] ++ [row])) ∧
      (([] : List UserRow) ++ [row]).countP (fun r => r.email == johnDoe.Email) = 1 ∧
      (∀ env2 : Env, (env2.Now 0).Valid → Time.le (sampleEnv.Now 0) (env2.Now 0) →
        RegisterUserHandler env2 (some (tableDB ([] ++ [row]))) (.ok johnDoe) =
          ⟨⟨400, Body.text "Email already in use"⟩, [Call.QueryRow johnDoe.Email],
            some (tableDB ([] ++ [row]))⟩) ∧
      (∀ envs : List Env, (∀ e ∈ envs, (e.Now 0).Valid ∧ Time.le (sampleEnv.Now 0) (e.Now 0)) →
        resubmit johnDoe envs (some (tableDB ([] ++ [row]))) =
          (envs.map fun _ => ⟨400, Body.text "Email already in use"⟩,
            some (tableDB ([] ++ [row])))) :=
  ⟨⟨by decide, by decide⟩, resubmission_rejected sampleEnv [] johnDoe (by decide) (by decide)⟩

/-- Claim C6. For a request that passes validation and a present database whose existence query
succeeds and reports the email as present, the handler answers 400 "Email already in use"; the
only call made is that one query, so nothing is hashed and nothing inserted, and the database
is left unchanged. -/
theorem RegisterUserHandler_email_in_use {σ : Type} (env : Env) (d : DB σ)
    (req : RegistrationRequest)
    (hv : validateRegistrationInput (env.Now 0) req = none)
    (hq : d.QueryRow d.state req.Email = .ok true) :
    RegisterUserHandler env (some d) (.ok req) =
      ⟨⟨400, Body.text "Email already in use"⟩, [Call.QueryRow req.Email], some d⟩ :=
  RegisterUserHandler_of_found env d req hv hq

theorem RegisterUserHandler_email_in_use_witness :
    (validateRegistrationInput (sampleEnv.Now 0) johnDoe = none ∧
      (tableDB [johnDoeRow]).QueryRow (tableDB [johnDoeRow]).state johnDoe.Email = .ok true) ∧
    RegisterUserHandler sampleEnv (some (tableDB [johnDoeRow])) (.ok johnDoe) =
      ⟨⟨400, Body.text "Email already in use"⟩, [Call.QueryRow johnDoe.Email],
        some (tableDB [johnDoeRow])⟩ :=
  ⟨⟨by decide, rfl⟩,
    RegisterUserHandler_email_in_use sampleEnv (tableDB [johnDoeRow]) johnDoe (by decide) rfl⟩

/-- When the encoder fails after a successful insert, the row is in the database all the same and
the recorded status is still 201, the body being the text handed to `http.Error`. -/
theorem RegisterUserHandler_encode_error {σ : Type} (env : Env) (d : DB σ)
    (req : RegistrationRequest) (hashedPassword err : String) (st : σ)
    (hv : validateRegistrationInput (env.Now 0) req = none)
    (hq : d.QueryRow d.state req.Email = .ok false)
    (hh : env.GenerateFromPassword req.Password = .ok hashedPassword)
    (he : d.Exec d.state
        ⟨env.NewString, req.FirstName, req.LastName, req.Email, req.PhoneNumber, hashedPassword,
          req.DateOfBirth, true, env.Now 1, env.Now 2⟩ = (none, st))
    (henc : env.Encode [("message", "User created successfully")] = some err) :
    RegisterUserHandler env (some d) (.ok req) =
      ⟨⟨201, Body.text ("Failed to encode response: " ++ err)⟩,
        [Call.QueryRow req.Email, Call.GenerateFromPassword req.Password,
          Call.Exec ⟨env.NewString, req.FirstName, req.LastName, req.Email, req.PhoneNumber,
            hashedPassword, req.DateOfBirth, true, env.Now 1, env.Now 2⟩],
        some ⟨st, d.QueryRow, d.Exec⟩⟩ := by
  simp only [RegisterUserHandler, hv, hq, hh, he, henc]
  rfl

/-- Claim C7. For a request that passes validation, a present database whose existence query
reports the email as absent, a hasher that succeeds, an insert that succeeds and a response
writer that takes the encoded body without error, the handler answers 201 with the JSON body
`message: User created successfully`; the calls are, in order, one existence query for the
request's email, one hashing of the request's password and one insert; the inserted row carries
the first name, last name, email, phone number and date of birth of the request unchanged,
`is_active = true`, and as password the output of the hasher. -/
theorem RegisterUserHandler_success {σ : Type} (env : Env) (d : DB σ)
    (req : RegistrationRequest) (hashedPassword : String) (st : σ)
    (hv : validateRegistrationInput (env.Now 0) req = none)
    (hq : d.QueryRow d.state req.Email = .ok false)
    (hh : env.GenerateFromPassword req.Password = .ok hashedPassword)
    (he : d.Exec d.state
        ⟨env.NewString, req.FirstName, req.LastName, req.Email, req.PhoneNumber, hashedPassword,
          req.DateOfBirth, true, env.Now 1, env.Now 2⟩ = (none, st))
    (henc : env.Encode [("message", "User created successfully")] = none) :
    RegisterUserHandler env (some d) (.ok req) =
      ⟨⟨201, Body.json [("message", "User created successfully")]⟩,
        [Call.QueryRow req.Email, Call.GenerateFromPassword req.Password,
          Call.Exec ⟨env.NewString, req.FirstName, req.LastName, req.Email, req.PhoneNumber,
            hashedPassword, req.DateOfBirth, true, env.Now 1, env.Now 2⟩],
        some ⟨st, d.QueryRow, d.Exec⟩⟩ := by
  simp only [RegisterUserHandler, hv, hq, hh, he, henc]
  rfl

theorem RegisterUserHandler_success_witness :
    (validateRegistrationInput (sampleEnv.Now 0) johnDoe = none ∧
      (tableDB []).QueryRow (tableDB []).state johnDoe.Email = .ok false ∧
      sampleEnv.GenerateFromPassword johnDoe.Password = .ok "$2a$10$N9qo8uLOickgx2ZMRZoMye" ∧
      (tableDB []).Exec (tableDB []).state johnDoeRow = (none, [johnDoeRow]) ∧
      sampleEnv.Encode [("message", "User created successfully")] = none) ∧
    RegisterUserHandler sampleEnv (some (tableDB [])) (.ok johnDoe) =
      ⟨⟨201, Body.json [("message", "User created successfully")]⟩,
        [Call.QueryRow "johndoe@example.com", Call.GenerateFromPassword "validpassword",
          Call.Exec johnDoeRow],
        some ⟨[johnDoeRow], (tableDB []).QueryRow, (tableDB []).Exec⟩⟩ :=
  ⟨⟨by decide, rfl, rfl, rfl, rfl⟩,
    RegisterUserHandler_success sampleEnv (tableDB []) johnDoe "$2a$10$N9qo8uLOickgx2ZMRZoMye"
      [johnDoeRow] (by decide) rfl rfl rfl rfl⟩

/-- Claim C9. With a nil database handle, a request that decodes and passes validation gets 500
with the bare message "Internal server error"; the only call is the log line, so no query, hash
or insert is attempted. The nil check comes after decoding and validation: with a nil handle a
malformed body still gets its 400 "Invalid request payload: ..." and an invalid request still
gets 400 with its validation message. -/
theorem RegisterUserHandler_nil_db :
    (∀ (σ : Type) (env : Env) (req : RegistrationRequest),
      validateRegistrationInput (env.Now 0) req = none →
        RegisterUserHandler env (none : Option (DB σ)) (.ok req) =
          ⟨⟨500, Body.text "Internal server error"⟩,
            [Call.Println "Database connection is nil"], none⟩) ∧
    (∀ (σ : Type) (env : Env) (err : String),
      RegisterUserHandler env (none : Option (DB σ)) (.error err) =
        ⟨⟨400, Body.text ("Invalid request payload: " ++ err)⟩, [], none⟩) ∧
    (∀ (σ : Type) (env : Env) (req : RegistrationRequest) (msg : String),
      validateRegistrationInput (env.Now 0) req = some msg →
        RegisterUserHandler env (none : Option (DB σ)) (.ok req) =
          ⟨⟨400, Body.text msg⟩, [], none⟩) := by
  refine ⟨?_, ?_, ?_⟩
  · intro σ env req h
    simp only [RegisterUserHandler, h]
    rfl
  · intro σ env err
    rfl
  · intro σ env req msg h
    simp only [RegisterUserHandler, h]
    rfl

theorem RegisterUserHandler_nil_db_witness :
    (validateRegistrationInput (sampleEnv.Now 0) johnDoe = none ∧
      RegisterUserHandler sampleEnv (none : Option (DB Unit)) (.ok johnDoe) =
        ⟨⟨500, Body.text "Internal server error"⟩,
          [Call.Println "Database connection is nil"], none⟩) ∧
    (validateRegistrationInput (sampleEnv.Now 0) minorPayload =
        some "user must be at least 18 years old" ∧
      RegisterUserHandler sampleEnv (none : Option (DB Unit)) (.ok minorPayload) =
        ⟨⟨400, Body.text "user must be at least 18 years old"⟩, [], none⟩) :=
  ⟨⟨by decide, RegisterUserHandler_nil_db.1 Unit sampleEnv johnDoe (by decide)⟩,
    ⟨by decide,
      RegisterUserHandler_nil_db.2.2 Unit sampleEnv minorPayload
        "user must be at least 18 years old" (by decide)⟩⟩

end User
